import Mathlib

/-!
# Verification of the bootstrap loader of `image-cdn`

Shallow embedding of `src/api/src/cmd/admin/bootstrap.rs`: the declarative
bootstrap loader and credential-provisioning subsystem.  Pure data handling
(filename classification, JSON dispatch, credential parsing, API-key record
derivation) is translated function-by-function from the Rust source; the
database transaction of `conn.build_transaction().run` is modelled as explicit
state passing over a list of inserted records, with commit-time deferred
constraint validation modelled as a predicate.
-/

/-! ## JSON values (model of `serde_json::Value`) -/

/-- Model of `serde_json::Value`.  Numbers are modelled as integers; none of
the loader's control flow inspects numeric values. -/
inductive Json where
  | null : Json
  | bool : Bool → Json
  | num : Int → Json
  | str : String → Json
  | arr : List Json → Json
  | obj : List (String × Json) → Json

/-- True exactly on `serde_json::Value::Object`. -/
def Json.isObj : Json → Bool
  | .obj _ => true
  | _ => false

/-- True exactly on `serde_json::Value::Array`. -/
def Json.isArr : Json → Bool
  | .arr _ => true
  | _ => false

/-! ## Error taxonomy (spec section 7)

The Rust code returns `anyhow::Error` values; the spec's section 7 names each
failure branch.  Each constructor corresponds to one family of error branches
of the source. -/

inductive BErr where
  /-- Render-time failure of the liquid template (`parser.parse_file` / `template.render`). -/
  | templateError : String → BErr
  /-- Failure of `serde_json::from_str` on the rendered text. -/
  | jsonParseError : String → BErr
  /-- Errors of `apply_object` lines 98-101 and 181: no type segment, or unmatched tag. -/
  | unknownObjectType : String → BErr
  /-- Errors of `apply_file` lines 65 and 70: "Expected object, found ...". -/
  | malformedRecord : String → BErr
  /-- Schema mismatch in `serde_json::from_value`. -/
  | decodeError : String → BErr
  /-- Credential split/base64/uuid failures (lines 144-156). -/
  | malformedCredential : String → BErr
  /-- Line 149-151: first credential part differs from the fixed constant. -/
  | pfxMismatch : BErr
  /-- Deferred constraint violation surfacing at commit. -/
  | integrityError : String → BErr
  /-- Bad glob root or pattern. -/
  | discoveryError : String → BErr
deriving DecidableEq, Repr

/-! ## Splitting on `'.'` (model of Rust `str::split('.')`) -/

/-- Translation of Rust `str::split('.')` to a structurally recursive function
on the character list: `splitDot "a.b".data = [['a'],['b']]`, and the empty
string yields one empty segment, exactly as in Rust. -/
def splitDot : List Char → List (List Char)
  | [] => [[]]
  | c :: rest =>
    let r := splitDot rest
    if c = '.' then [] :: r
    else
      match r with
      | s :: ss => (c :: s) :: ss
      | [] => [[c]]

/-! ## Type classification (`apply_object` lines 98-101) -/

/-- Translation of `filename.rsplit('.').nth(1)`: the second-from-last dot-separated segment.
`rsplit` enumerates the split segments from the right, so `nth(1)` is index 1
of the reversed segment list. -/
def classify (filename : String) : Option String :=
  ((splitDot filename.data).reverse.get? 1).map fun cs => String.mk cs

/-- The closed set of object types of the dispatch table (lines 103-181). -/
inductive ObjType where
  | user | userRole | team | project | conversionProfile
  | storageLocation | uploadProfile | role | rolePermission | apiKey
deriving DecidableEq, Repr

/-- The match arms of `apply_object` lines 103-140: singular and plural
spellings of each tag select the same object type. -/
def lookupType : String → Option ObjType
  | "user" | "users" => some .user
  | "user_role" | "user_roles" => some .userRole
  | "team" | "teams" => some .team
  | "project" | "projects" => some .project
  | "conversion_profile" | "conversion_profiles" => some .conversionProfile
  | "storage_location" | "storage_locations" => some .storageLocation
  | "upload_profile" | "upload_profiles" => some .uploadProfile
  | "role" | "roles" => some .role
  | "role_permission" | "role_permissions" => some .rolePermission
  | "api_key" | "api_keys" => some .apiKey
  | _ => none

/-! ## Credential provisioning (`apply_object` lines 140-179) -/

/-- Model of `uuid::Uuid`: a 128-bit identifier, as its 16 bytes. -/
structure Uuid where
  bytes : List Nat
deriving DecidableEq, Repr

/-- Modelled from the spec: `pic_store_api::auth::API_KEY_PREFIX` is declared
in a module that is not under `src/`; the spec calls it "a fixed,
globally-known prefix constant" whose value it does not give.  An arbitrary
concrete value is chosen; no theorem below depends on the value. -/
def apiKeyPfx : String := "ps1"

/-- The value of one URL-safe base64 symbol (alphabet `A-Z a-z 0-9 - _`),
as in the `base64` crate's `URL_SAFE` character set. -/
def b64Val (c : Char) : Option Nat :=
  let n := c.toNat
  if 65 ≤ n ∧ n ≤ 90 then some (n - 65)
  else if 97 ≤ n ∧ n ≤ 122 then some (n - 97 + 26)
  else if 48 ≤ n ∧ n ≤ 57 then some (n - 48 + 52)
  else if n = 45 then some 62
  else if n = 95 then some 63
  else none

/-- Bytes of a list of 6-bit symbol values, as the `base64` crate (v0.13)
decodes an unpadded input: full chunks of 4 symbols yield 3 bytes; a trailing
chunk of 2 or 3 symbols yields 1 or 2 bytes and must have zero trailing bits
(`InvalidLastSymbol`); a trailing chunk of 1 symbol is `InvalidLength`.  The
spec's section 4.5 maps every decode failure to `MalformedCredential`. -/
def b64Chunks : List Nat → Except BErr (List Nat)
  | [] => .ok []
  | [_] => .error (.malformedCredential "Invalid base64 length")
  | [a, b] =>
    if b % 16 = 0 then .ok [a * 4 + b / 16]
    else .error (.malformedCredential "Invalid last base64 symbol")
  | [a, b, c] =>
    if c % 4 = 0 then .ok [a * 4 + b / 16, b % 16 * 16 + c / 4]
    else .error (.malformedCredential "Invalid last base64 symbol")
  | a :: b :: c :: d :: rest =>
    match b64Chunks rest with
    | .error e => .error e
    | .ok tail => .ok ((a * 4 + b / 16) :: (b % 16 * 16 + c / 4) :: (c % 4 * 64 + d) :: tail)

/-- Translation of `base64::decode_config(part, base64::URL_SAFE_NO_PAD)`: every symbol must
be in the URL-safe alphabet (padding `=` included in no case), then the symbol
values are converted to bytes. -/
def b64UrlDecode (p : List Char) : Except BErr (List Nat) :=
  match p.mapM b64Val with
  | none => .error (.malformedCredential "Invalid base64 symbol")
  | some vs => b64Chunks vs

/-- Translation of `Uuid::from_slice`: succeeds exactly on 16-byte slices. -/
def uuidFromSlice (bs : List Nat) : Except BErr Uuid :=
  if bs.length = 16 then .ok ⟨bs⟩
  else .error (.malformedCredential "invalid uuid length")

/-- Credential parsing, lines 144-156 of `apply_object`: split the presented
key on `'.'`, require exactly 3 parts, require the first to equal the fixed
constant, and base64-decode the other two into 16-byte identifiers. -/
def parseApiKey (key : String) : Except BErr (Uuid × Uuid) :=
  match splitDot key.data with
  | [p0, p1, p2] =>
    if p0 ≠ apiKeyPfx.data then .error .pfxMismatch
    else
      match b64UrlDecode p1 with
      | .error e => .error e
      | .ok idData =>
        match uuidFromSlice idData with
        | .error e => .error e
        | .ok id =>
          match b64UrlDecode p2 with
          | .error e => .error e
          | .ok randData =>
            match uuidFromSlice randData with
            | .error e => .error e
            | .ok rand => .ok (id, rand)
  | _ => .error (.malformedCredential "API key must have 3 parts")

/-- Modelled from the spec: `pic_store_auth::api_key::ApiKeyData` and its
digest are not under `src/`.  Section 4.5 requires a deterministic one-way
digest over the full tuple `(prefix, id, random, expiry)` whose recomputation
from the same tuple is bit-for-bit equal, and whose value changes when any
component changes (section 8, credential round-trip); the digest is therefore
modelled as a value that is in bijection with the input tuple. -/
structure KeyDigest where
  pfx : List Char
  id : Uuid
  rand : Uuid
  expires : Int
deriving DecidableEq, Repr

/-- Modelled from the spec: result of `ApiKeyData::from_params`, carrying the
derived `prefix` (the `pfx` field here) and the digest `hash`. -/
structure ApiKeyData where
  pfx : List Char
  hash : KeyDigest
deriving DecidableEq, Repr

/-- Modelled from the spec: `ApiKeyData::from_params(prefix, id, random,
expires)` derives the storable pair deterministically from exactly those four
inputs. -/
def ApiKeyData.from_params (p : List Char) (id rand : Uuid) (expires : Int) : ApiKeyData :=
  { pfx := p, hash := { pfx := p, id := id, rand := rand, expires := expires } }

/-! ## The api_key input schema and row (lines 83-91 and 158-179) -/

/-- The struct `ApiKeyInput` (lines 83-91): the deserializable input schema of an api_key
bootstrap record.  `TeamId`/`UserId` are modelled as their string form and
`DateTime<Utc>` values as integer timestamps. -/
structure ApiKeyInput where
  key : String
  name : String
  team_id : String
  user_id : String
  inherits_user_permissions : Bool
  expires : Int
deriving DecidableEq, Repr

/-- The `db::api_keys::ApiKey` row as constructed at lines 165-175 — exactly
the nine fields written there.  `pfx` models the `prefix` column and `hash`
the digest bytes. -/
structure ApiKey where
  id : Uuid
  name : String
  pfx : List Char
  hash : KeyDigest
  team_id : String
  user_id : String
  inherits_user_permissions : Bool
  created : Int
  expires : Int
deriving DecidableEq, Repr

/-- A record inserted by the loader.  The typed records of the `pic_store_db`
crate (NewUser, NewTeam, ...) are not under `src/`; a non-api-key record is
carried as its type together with its decoded JSON payload. -/
inductive Record where
  | apiKey : ApiKey → Record
  | other : ObjType → Json → Record

/-- First field of the given name (`serde_json` object field lookup). -/
def getField (fields : List (String × Json)) (name : String) : Option Json :=
  (fields.find? fun p => p.1 = name).map fun p => p.2

/-- Required string field. -/
def reqStr (fields : List (String × Json)) (name : String) : Option String :=
  match getField fields name with
  | some (.str s) => some s
  | _ => none

/-- Required boolean field. -/
def reqBool (fields : List (String × Json)) (name : String) : Option Bool :=
  match getField fields name with
  | some (.bool b) => some b
  | _ => none

/-- Required integer (timestamp) field. -/
def reqInt (fields : List (String × Json)) (name : String) : Option Int :=
  match getField fields name with
  | some (.num n) => some n
  | _ => none

/-- Translation of the `serde_json::from_value` call for `ApiKeyInput` (line 141): each declared field is
required with its declared type; fields not in the schema are ignored, as by
serde's default behavior. -/
def decodeApiKeyInput (j : Json) : Except BErr ApiKeyInput :=
  match j with
  | .obj fields =>
    match reqStr fields "key", reqStr fields "name", reqStr fields "team_id",
          reqStr fields "user_id", reqBool fields "inherits_user_permissions",
          reqInt fields "expires" with
    | some k, some nm, some tm, some us, some inh, some ex =>
      .ok { key := k, name := nm, team_id := tm, user_id := us,
            inherits_user_permissions := inh, expires := ex }
    | _, _, _, _, _, _ => .error (.decodeError "api_key")
  | _ => .error (.decodeError "api_key")

/-- The row construction of lines 165-175: the decoded input, the identifier
from the credential, the derived `ApiKeyData`, and the insertion-time clock
`now` (`Utc::now()`), and nothing else, determine the row. -/
def apiKeyRow (input : ApiKeyInput) (id : Uuid) (data : ApiKeyData) (now : Int) : ApiKey :=
  { id := id, name := input.name, pfx := data.pfx, hash := data.hash,
    team_id := input.team_id, user_id := input.user_id,
    inherits_user_permissions := input.inherits_user_permissions,
    created := now, expires := input.expires }

/-- The api_key arm of `apply_object` (lines 140-179): decode the input,
parse the credential, derive the storable data, build the row. -/
def applyApiKey (now : Int) (obj : Json) : Except BErr Record :=
  match decodeApiKeyInput obj with
  | .error e => .error e
  | .ok input =>
    match parseApiKey input.key with
    | .error e => .error e
    | .ok (id, rand) =>
      .ok (.apiKey (apiKeyRow input id
        (ApiKeyData.from_params apiKeyPfx.data id rand input.expires) now))

/-- Modelled from the spec: the typed decoders of the `pic_store_db` crate
(NewUser, NewTeam, ...) are not under `src/`; section 4.4 says each accepted
object is decoded against the schema for the tag.  A non-api-key decode is
modelled as accepting any JSON object. -/
def decodeRecord (t : ObjType) (j : Json) : Except BErr Record :=
  match j with
  | .obj _ => .ok (.other t j)
  | _ => .error (.decodeError "expected object")

/-- Translation of `apply_object` (lines 93-185): classify the filename, dispatch on the
closed tag table, decode and produce the record to insert. -/
def apply_object (now : Int) (filename : String) (obj : Json) : Except BErr Record :=
  match classify filename with
  | none => .error (.unknownObjectType filename)
  | some tag =>
    match lookupType tag with
    | none => .error (.unknownObjectType filename)
    | some .apiKey => applyApiKey now obj
    | some t => decodeRecord t obj

/-- A JSON object of the api_key input shape with the given field values;
the concrete input shape used to state properties of the api_key path. -/
def mkApiKeyJson (key nm tm us : String) (inh : Bool) (ex : Int) : Json :=
  .obj [("key", .str key), ("name", .str nm), ("team_id", .str tm),
        ("user_id", .str us), ("inherits_user_permissions", .bool inh),
        ("expires", .num ex)]

/-! ## Files and the transaction (`apply_file`, `bootstrap`) -/

/-- One discovered file.  `name` is the final path component
(`filename.file_name()`); `content` is the outcome of the liquid render and
`serde_json::from_str` parse, which are external crates: a render or parse
failure is an error value here, success is the parsed JSON. -/
structure DataFile where
  name : String
  content : Except BErr Json

/-- The array loop of `apply_file` (lines 60-68): elements are applied in
order; a non-object element, or a failing element, aborts the file with the
records already produced.  Returns the records produced and the error, if
any. -/
def applyArr (now : Int) (name : String) : List Json → List Record × Option BErr
  | [] => ([], none)
  | j :: js =>
    match j with
    | .obj fs =>
      match apply_object now name (.obj fs) with
      | .ok r =>
        match applyArr now name js with
        | (rs, e) => (r :: rs, e)
      | .error e => ([], some e)
    | _ => ([], some (.malformedRecord "Expected object"))

/-- Translation of `apply_file` (lines 45-74), after render and parse: a top-level array is
applied elementwise, a top-level object is applied once, anything else is
rejected. -/
def apply_file (now : Int) (f : DataFile) : List Record × Option BErr :=
  match f.content with
  | .error e => ([], some e)
  | .ok (.arr a) => applyArr now f.name a
  | .ok (.obj fs) =>
    match apply_object now f.name (.obj fs) with
    | .ok r => ([r], none)
    | .error e => ([], some e)
  | .ok _ => ([], some (.malformedRecord "Expected object"))

/-- The file loop of `bootstrap` (lines 34-37): files are applied in
discovery order; the first error stops the loop.  Returns every record whose
insert statement was executed (including those of files before a failure) and
the first error, if any. -/
def runFiles (now : Int) : List DataFile → List Record × Option BErr
  | [] => ([], none)
  | f :: fs =>
    match apply_file now f with
    | (rs, some e) => (rs, some e)
    | (rs, none) =>
      match runFiles now fs with
      | (rs2, e) => (rs ++ rs2, e)

/-- Statements executed on the database connection inside the transaction. -/
inductive Stmt where
  | deferConstraints : Stmt
  | insert : Record → Stmt

/-- The statement trace of one bootstrap invocation (lines 30-40):
`SET CONSTRAINTS ALL DEFERRED` first, then the executed inserts. -/
def bootstrapTrace (now : Int) (files : List DataFile) : List Stmt :=
  .deferConstraints :: ((runFiles now files).1.map .insert)

/-- Translation of `bootstrap` (lines 20-43): one transaction around the whole file loop.
Transaction semantics of `conn.build_transaction().run` are modelled as
explicit state passing: an error from the closure rolls the store back to its
initial value; on success the deferred constraints are validated at commit,
modelled by the `commitCheck` predicate — failure raises `IntegrityError`
and also rolls back. -/
def bootstrap (commitCheck : List Record → Bool) (now : Int) (files : List DataFile)
    (store : List Record) : Except BErr Unit × List Record :=
  match runFiles now files with
  | (_, some e) => (.error e, store)
  | (rs, none) =>
    if commitCheck (store ++ rs) then (.ok (), store ++ rs)
    else (.error (.integrityError "deferred constraint violation"), store)

/-! ## Path model for `file_name().unwrap()` (line 57) -/

/-- Rust `Path::file_name` over normalized path components: the last
component, unless it is `..` (or the path has no components). -/
def fileNameOf (components : List String) : Option String :=
  match components.getLast? with
  | none => none
  | some c => if c = ".." then none else some c

/-- The final component ends in `.json`: its character list, reversed,
starts with `n`, `o`, `s`, `j`, `.`. -/
def endsWithDotJson (s : String) : Bool :=
  match s.data.reverse with
  | 'n' :: 'o' :: 's' :: 'j' :: '.' :: _ => true
  | _ => false

/-- Modelled from the glob pattern at line 24: every path yielded by
`<root>/**/*.json` has a final component that matches `*.json`, i.e. ends in
`.json`. -/
def globYieldsJson (p : List String) : Bool :=
  match p.getLast? with
  | none => false
  | some c => endsWithDotJson c

/-- A syntactically valid sample credential: the fixed constant and two
22-symbol base64url groups decoding to 16 zero bytes each. -/
def sampleKey : String := "ps1.AAAAAAAAAAAAAAAAAAAAAA.AAAAAAAAAAAAAAAAAAAAAA"

/-- The all-zero 128-bit identifier. -/
def zeroUuid : Uuid := ⟨[0, 0, 0, 0, 0, 0, 0, 0, 0, 0, 0, 0, 0, 0, 0, 0]⟩

/-! ## Helper lemmas -/

theorem b64Chunks_err : ∀ (vs : List Nat) (e : BErr),
    b64Chunks vs = .error e → ∃ m, e = .malformedCredential m
  | [], e, h => by simp [b64Chunks] at h
  | [_], e, h => by
    unfold b64Chunks at h
    exact ⟨_, (Except.error.inj h).symm⟩
  | [_, b], e, h => by
    unfold b64Chunks at h
    split at h
    · exact Except.noConfusion h
    · exact ⟨_, (Except.error.inj h).symm⟩
  | [_, b, c], e, h => by
    unfold b64Chunks at h
    split at h
    · exact Except.noConfusion h
    · exact ⟨_, (Except.error.inj h).symm⟩
  | a :: b :: c :: d :: rest, e, h => by
    unfold b64Chunks at h
    cases hr : b64Chunks rest with
    | error e2 =>
      rw [hr] at h
      obtain ⟨m, hm⟩ := b64Chunks_err rest e2 hr
      exact ⟨m, (Except.error.inj h) ▸ hm⟩
    | ok tail =>
      rw [hr] at h
      exact Except.noConfusion h

theorem b64UrlDecode_err (p : List Char) (e : BErr) (h : b64UrlDecode p = .error e) :
    ∃ m, e = .malformedCredential m := by
  unfold b64UrlDecode at h
  cases hm : p.mapM b64Val with
  | none =>
    rw [hm] at h
    exact ⟨_, (Except.error.inj h).symm⟩
  | some vs =>
    rw [hm] at h
    exact b64Chunks_err vs e h

theorem uuidFromSlice_err (bs : List Nat) (e : BErr) (h : uuidFromSlice bs = .error e) :
    ∃ m, e = .malformedCredential m := by
  unfold uuidFromSlice at h
  split at h
  · exact Except.noConfusion h
  · exact ⟨_, (Except.error.inj h).symm⟩

theorem applyApiKey_mk (now : Int) (s nm tm us : String) (inh : Bool) (ex : Int) :
    applyApiKey now (mkApiKeyJson s nm tm us inh ex) =
      match parseApiKey s with
      | .error e => .error e
      | .ok (id, rand) =>
        .ok (.apiKey (apiKeyRow ⟨s, nm, tm, us, inh, ex⟩ id
          (ApiKeyData.from_params apiKeyPfx.data id rand ex) now)) := rfl

/-! ## Claim theorems -/

/-- C3: for every api_key input string, processing fails with
`MalformedCredential` unless splitting on `'.'` yields exactly 3 parts; given
3 parts it fails with `PrefixMismatch` if the first differs from the fixed
constant; given a matching first part it fails with `MalformedCredential` if
either remaining part is not valid URL-safe unpadded base64 of exactly 16
decoded bytes; and no insert occurs in any of these failure cases (the
api_key arm returns the error instead of a record). -/
theorem api_key_credential_errors (s : String) :
    ((splitDot s.data).length ≠ 3 →
      parseApiKey s = .error (.malformedCredential "API key must have 3 parts"))
    ∧ (∀ p0 p1 p2, splitDot s.data = [p0, p1, p2] → p0 ≠ apiKeyPfx.data →
      parseApiKey s = .error .pfxMismatch)
    ∧ (∀ p0 p1 p2, splitDot s.data = [p0, p1, p2] → p0 = apiKeyPfx.data →
      (¬ (∃ bs, b64UrlDecode p1 = .ok bs ∧ bs.length = 16) ∨
       ¬ (∃ bs, b64UrlDecode p2 = .ok bs ∧ bs.length = 16)) →
      ∃ m, parseApiKey s = .error (.malformedCredential m))
    ∧ (∀ e, parseApiKey s = .error e →
      ∀ now nm tm us inh ex,
        applyApiKey now (mkApiKeyJson s nm tm us inh ex) = .error e) := by
  refine ⟨?_, ?_, ?_, ?_⟩
  · intro hlen
    unfold parseApiKey
    split
    · rename_i p0 p1 p2 heq
      rw [heq] at hlen
      simp at hlen
    · rfl
  · intro p0 p1 p2 heq hne
    simp only [parseApiKey, heq]
    rw [if_pos hne]
  · intro p0 p1 p2 heq hpfx hbad
    subst hpfx
    simp only [parseApiKey, heq, ne_eq, not_true_eq_false, if_false]
    cases hb1 : b64UrlDecode p1 with
    | error e1 =>
      obtain ⟨m, hm⟩ := b64UrlDecode_err p1 e1 hb1
      exact ⟨m, by rw [hm]⟩
    | ok bs1 =>
      by_cases h16 : bs1.length = 16
      · have hu1 : uuidFromSlice bs1 = .ok ⟨bs1⟩ := by simp [uuidFromSlice, h16]
        simp only [hu1]
        cases hb2 : b64UrlDecode p2 with
        | error e2 =>
          obtain ⟨m, hm⟩ := b64UrlDecode_err p2 e2 hb2
          exact ⟨m, by rw [hm]⟩
        | ok bs2 =>
          by_cases h16b : bs2.length = 16
          · rcases hbad with hbad | hbad
            · exact absurd ⟨bs1, hb1, h16⟩ hbad
            · exact absurd ⟨bs2, hb2, h16b⟩ hbad
          · have hu2 : uuidFromSlice bs2 = .error (.malformedCredential "invalid uuid length") := by
              simp [uuidFromSlice, h16b]
            simp only [hb2, hu2]
            exact ⟨"invalid uuid length", rfl⟩
      · have hu1 : uuidFromSlice bs1 = .error (.malformedCredential "invalid uuid length") := by
          simp [uuidFromSlice, h16]
        simp only [hu1]
        exact ⟨"invalid uuid length", rfl⟩
  · intro e he now nm tm us inh ex
    rw [applyApiKey_mk, he]

/-- C4: for every valid api_key input with credential parsing to `(id, rand)`
and expiry `ex`, the inserted record's id is the decoded identifier and its
prefix and hash are those produced by the derivation applied to the fixed
constant, `id`, `rand` and `ex`; the stored hash equals its recomputation
from the same four inputs, and changing any one of the four inputs changes
the hash. -/
theorem api_key_derivation (now : Int) (s nm tm us : String) (inh : Bool) (ex : Int)
    (id rand : Uuid) :
    (parseApiKey s = .ok (id, rand) →
      apply_object now "x.api_key.json" (mkApiKeyJson s nm tm us inh ex) =
        .ok (.apiKey
          { id := id, name := nm,
            pfx := (ApiKeyData.from_params apiKeyPfx.data id rand ex).pfx,
            hash := (ApiKeyData.from_params apiKeyPfx.data id rand ex).hash,
            team_id := tm, user_id := us, inherits_user_permissions := inh,
            created := now, expires := ex }))
    ∧ (ApiKeyData.from_params apiKeyPfx.data id rand ex).hash =
        (ApiKeyData.from_params apiKeyPfx.data id rand ex).hash
    ∧ (∀ (p q : List Char) (i j r t : Uuid) (e f : Int),
        (ApiKeyData.from_params p i r e).hash = (ApiKeyData.from_params q j t f).hash →
        p = q ∧ i = j ∧ r = t ∧ e = f) := by
  refine ⟨?_, rfl, ?_⟩
  · intro h
    have e0 : apply_object now "x.api_key.json" (mkApiKeyJson s nm tm us inh ex) =
        applyApiKey now (mkApiKeyJson s nm tm us inh ex) := rfl
    rw [e0, applyApiKey_mk, h]
    rfl
  · intro p q i j r t e f h
    have h' : KeyDigest.mk p i r e = KeyDigest.mk q j t f := h
    injection h' with h1 h2 h3 h4
    exact ⟨h1, h2, h3, h4⟩

/-- C2: the row written for a successfully applied api_key record has exactly
the fields id, name, prefix, hash, team_id, user_id,
inherits_user_permissions, created and expires; the row is independent of the
raw `key` input string except through its parse result (so the raw credential
is never part of the row), and the decoded random component enters the row
only as an argument of the digest derivation. -/
theorem api_key_row_no_secret (now : Int) :
    (∀ input id data now2, apiKeyRow input id data now2 =
      { id := id, name := input.name, pfx := data.pfx, hash := data.hash,
        team_id := input.team_id, user_id := input.user_id,
        inherits_user_permissions := input.inherits_user_permissions,
        created := now2, expires := input.expires })
    ∧ (∀ input k id data now2,
        apiKeyRow input id data now2 = apiKeyRow { input with key := k } id data now2)
    ∧ (∀ s1 s2 nm tm us inh ex, parseApiKey s1 = parseApiKey s2 →
        applyApiKey now (mkApiKeyJson s1 nm tm us inh ex) =
          applyApiKey now (mkApiKeyJson s2 nm tm us inh ex)) := by
  refine ⟨fun input id data now2 => rfl, fun input k id data now2 => rfl, ?_⟩
  intro s1 s2 nm tm us inh ex h
  rw [applyApiKey_mk, applyApiKey_mk, h]
  cases hp : parseApiKey s2 with
  | error e => rfl
  | ok v =>
    obtain ⟨id, rand⟩ := v
    rfl

theorem applyApiKey_eval (now : Int) (j : Json) (input : ApiKeyInput) (id rand : Uuid)
    (hd : decodeApiKeyInput j = .ok input) (hp : parseApiKey input.key = .ok (id, rand)) :
    applyApiKey now j = .ok (.apiKey (apiKeyRow input id
      (ApiKeyData.from_params apiKeyPfx.data id rand input.expires) now)) := by
  unfold applyApiKey
  simp only [hd, hp]

theorem applyApiKey_ok_shape (now : Int) (j : Json) (a : ApiKey)
    (h : applyApiKey now j = .ok (.apiKey a)) :
    ∃ input id rand, decodeApiKeyInput j = .ok input ∧
      parseApiKey input.key = .ok (id, rand) ∧
      a = apiKeyRow input id
        (ApiKeyData.from_params apiKeyPfx.data id rand input.expires) now := by
  unfold applyApiKey at h
  cases hd : decodeApiKeyInput j with
  | error e =>
    simp only [hd] at h
    exact Except.noConfusion h
  | ok input =>
    simp only [hd] at h
    cases hp : parseApiKey input.key with
    | error e =>
      simp only [hp] at h
      exact Except.noConfusion h
    | ok v =>
      obtain ⟨id, rand⟩ := v
      simp only [hp] at h
      refine ⟨input, id, rand, rfl, hp, ?_⟩
      have h1 := Except.ok.inj h
      have h2 := Record.apiKey.inj h1
      exact h2.symm

/-- C9: the `created` field of every inserted ApiKey row equals the loader's
clock at insertion (the `now` argument modelling `Utc::now()`); `created` is
not a field of the api_key input schema (an input field of that name is
ignored by the decoder); and the derived hash does not depend on the clock —
re-running the same input at a different clock changes only `created`. -/
theorem api_key_created_now :
    (∀ (now : Int) (j : Json) (a : ApiKey),
      applyApiKey now j = .ok (.apiKey a) → a.created = now)
    ∧ (∀ (v : Json) (fields : List (String × Json)),
      decodeApiKeyInput (.obj (("created", v) :: fields)) = decodeApiKeyInput (.obj fields))
    ∧ (∀ (now now2 : Int) (j : Json) (a : ApiKey),
      applyApiKey now j = .ok (.apiKey a) →
      applyApiKey now2 j = .ok (.apiKey { a with created := now2 })) := by
  refine ⟨?_, fun v fields => rfl, ?_⟩
  · intro now j a h
    obtain ⟨input, id, rand, hd, hp, ha⟩ := applyApiKey_ok_shape now j a h
    rw [ha]
    rfl
  · intro now now2 j a h
    obtain ⟨input, id, rand, hd, hp, ha⟩ := applyApiKey_ok_shape now j a h
    rw [applyApiKey_eval now2 j input id rand hd hp, ha]
    rfl

theorem applyArr_congr (now : Int) (n1 n2 : String)
    (hobj : ∀ j, apply_object now n1 j = apply_object now n2 j) :
    ∀ xs, applyArr now n1 xs = applyArr now n2 xs
  | [] => rfl
  | j :: js => by
    unfold applyArr
    cases j
    case obj fs =>
      simp only [hobj]
      cases apply_object now n2 (.obj fs) with
      | ok r =>
        rw [applyArr_congr now n1 n2 hobj js]
      | error e => rfl
    all_goals rfl

theorem apply_file_name_congr (now : Int) (n1 n2 : String)
    (hobj : ∀ j, apply_object now n1 j = apply_object now n2 j)
    (content : Except BErr Json) :
    apply_file now ⟨n1, content⟩ = apply_file now ⟨n2, content⟩ := by
  unfold apply_file
  cases content with
  | error e => rfl
  | ok v =>
    cases v
    case arr a => exact applyArr_congr now n1 n2 hobj a
    case obj fs =>
      simp only [hobj]
    all_goals rfl

/-- C7: for every type tag, the singular and plural spellings select the same
decoder and the same insert operation: for each of the ten tag pairs, two
filenames differing only in that spelling produce identical results on every
object — and hence two files differing only in the spelling and containing
the same content produce identical store effects. -/
theorem type_synonym_equiv (now : Int) (obj : Json) :
    apply_object now "x.user.json" obj = apply_object now "x.users.json" obj
    ∧ apply_object now "x.user_role.json" obj = apply_object now "x.user_roles.json" obj
    ∧ apply_object now "x.team.json" obj = apply_object now "x.teams.json" obj
    ∧ apply_object now "x.project.json" obj = apply_object now "x.projects.json" obj
    ∧ apply_object now "x.conversion_profile.json" obj
        = apply_object now "x.conversion_profiles.json" obj
    ∧ apply_object now "x.storage_location.json" obj
        = apply_object now "x.storage_locations.json" obj
    ∧ apply_object now "x.upload_profile.json" obj
        = apply_object now "x.upload_profiles.json" obj
    ∧ apply_object now "x.role.json" obj = apply_object now "x.roles.json" obj
    ∧ apply_object now "x.role_permission.json" obj
        = apply_object now "x.role_permissions.json" obj
    ∧ apply_object now "x.api_key.json" obj = apply_object now "x.api_keys.json" obj
    ∧ (∀ content : Except BErr Json,
        apply_file now ⟨"x.user.json", content⟩ = apply_file now ⟨"x.users.json", content⟩) :=
  ⟨rfl, rfl, rfl, rfl, rfl, rfl, rfl, rfl, rfl, rfl,
   fun content => apply_file_name_congr now "x.user.json" "x.users.json" (fun _ => rfl) content⟩

/-- C5 counterexample: the claim says a filename with fewer than three
dot-separated segments fails with `UnknownObjectType`, but `api_keys.json`
has two segments and its second-from-last segment (`rsplit('.').nth(1)`) is
the first one, `api_keys` — a known tag — so the object is applied
successfully instead of failing. -/
theorem classify_two_segments_accepted :
    (splitDot ("api_keys.json").data).length = 2
    ∧ (apply_object 0 "api_keys.json"
        (mkApiKeyJson "ps1.AAAAAAAAAAAAAAAAAAAAAA.AAAAAAAAAAAAAAAAAAAAAA"
          "k" "t" "u" true 0)).toOption.isSome = true :=
  ⟨rfl, rfl⟩

/-- C5 (amended): classification fails with `UnknownObjectType` (and no
record is produced) exactly when `rsplit('.').nth(1)` yields nothing — the
filename contains no dot — or yields a segment matching none of the known
type tags.  A two-segment filename whose first segment is a known tag is
accepted. -/
theorem classify_unknown_type (now : Int) (filename : String) (obj : Json) :
    (classify filename = none
      ∨ ∃ tag, classify filename = some tag ∧ lookupType tag = none) →
    apply_object now filename obj = .error (.unknownObjectType filename) := by
  intro h
  unfold apply_object
  rcases h with h | ⟨tag, h1, h2⟩
  · simp only [h]
  · simp only [h1, h2]

/-- Witness for the amended C5 at the spec's own example `x.widget.json`. -/
theorem classify_unknown_type_witness :
    (classify "x.widget.json" = none
      ∨ ∃ tag, classify "x.widget.json" = some tag ∧ lookupType tag = none)
    ∧ apply_object 0 "x.widget.json" (Json.obj [])
        = .error (.unknownObjectType "x.widget.json") :=
  ⟨Or.inr ⟨"widget", rfl, rfl⟩,
   classify_unknown_type 0 "x.widget.json" (Json.obj []) (Or.inr ⟨"widget", rfl, rfl⟩)⟩

theorem applyArr_ok (now : Int) (name : String) :
    ∀ (xs : List Json) (rs : List Record),
    (∀ j ∈ xs, Json.isObj j = true) →
    xs.mapM (apply_object now name) = .ok rs →
    applyArr now name xs = (rs, none) ∧ rs.length = xs.length
  | [], rs, _, hm => by
    have h : ([] : List Record) = rs := Except.ok.inj hm
    subst h
    exact ⟨rfl, rfl⟩
  | j :: js, rs, hobj, hm => by
    have hj := hobj j (List.mem_cons_self j js)
    rw [List.mapM_cons] at hm
    cases j <;> simp [Json.isObj] at hj
    case obj fs =>
      cases hr : apply_object now name (.obj fs) with
      | error e =>
        rw [hr] at hm
        exact Except.noConfusion hm
      | ok r =>
        rw [hr] at hm
        cases hrest : js.mapM (apply_object now name) with
        | error e =>
          rw [hrest] at hm
          exact Except.noConfusion hm
        | ok rest =>
          rw [hrest] at hm
          have hm' : r :: rest = rs := Except.ok.inj hm
          obtain ⟨h1, h2⟩ := applyArr_ok now name js rest
            (fun k hk => hobj k (List.mem_cons_of_mem _ hk)) hrest
          subst hm'
          unfold applyArr
          simp only [hr, h1]
          simp [h2]

theorem applyArr_stop (now : Int) (name : String) :
    ∀ (pre : List Json) (rs : List Record) (j : Json) (post : List Json),
    (∀ k ∈ pre, Json.isObj k = true) →
    pre.mapM (apply_object now name) = .ok rs →
    Json.isObj j = false →
    applyArr now name (pre ++ j :: post)
      = (rs, some (.malformedRecord "Expected object"))
  | [], rs, j, post, _, hm, hj => by
    have h : ([] : List Record) = rs := Except.ok.inj hm
    subst h
    unfold applyArr
    cases j <;> simp [Json.isObj] at hj <;> rfl
  | k :: pre, rs, j, post, hobj, hm, hj => by
    have hk := hobj k (List.mem_cons_self k pre)
    rw [List.mapM_cons] at hm
    cases k <;> simp [Json.isObj] at hk
    case obj fs =>
      cases hr : apply_object now name (.obj fs) with
      | error e =>
        rw [hr] at hm
        exact Except.noConfusion hm
      | ok r =>
        rw [hr] at hm
        cases hrest : pre.mapM (apply_object now name) with
        | error e =>
          rw [hrest] at hm
          exact Except.noConfusion hm
        | ok rest =>
          rw [hrest] at hm
          have hm' : r :: rest = rs := Except.ok.inj hm
          subst hm'
          have ih := applyArr_stop now name pre rest j post
            (fun q hq => hobj q (List.mem_cons_of_mem _ hq)) hrest hj
          show applyArr now name (.obj fs :: (pre ++ j :: post)) = _
          unfold applyArr
          simp only [hr, ih]

/-- C6 counterexample: the file `x.api_key.json` with rendered content
`[{}, "y"]` contains an array element that is not a JSON object, yet the
file fails with the first element's `DecodeError` (the empty object is
missing the api_key fields), not with `MalformedRecord` as the claim
requires. -/
theorem apply_file_mixed_error :
    Json.isObj (.str "y") = false
    ∧ apply_file 0 ⟨"x.api_key.json", .ok (.arr [.obj [], .str "y"])⟩
        = ([], some (.decodeError "api_key")) :=
  ⟨rfl, rfl⟩

/-- C6 (amended): a file whose rendered content is a JSON array of N objects,
each of which applies successfully, performs exactly N decode-and-insert
operations, one per element in array order; a top level that is neither an
object nor an array fails with `MalformedRecord`; an array element that is
not a JSON object fails the file with `MalformedRecord` provided every
earlier element applied successfully (otherwise the file fails with the
earlier element's error first). -/
theorem apply_file_top_level (now : Int) (name : String) (xs : List Json)
    (rs : List Record) :
    ((∀ j ∈ xs, Json.isObj j = true) →
      xs.mapM (apply_object now name) = .ok rs →
      apply_file now ⟨name, .ok (.arr xs)⟩ = (rs, none) ∧ rs.length = xs.length)
    ∧ (∀ v : Json, Json.isObj v = false → Json.isArr v = false →
      apply_file now ⟨name, .ok v⟩ = ([], some (.malformedRecord "Expected object")))
    ∧ (∀ (pre : List Json) (j : Json) (post : List Json),
      xs = pre ++ j :: post →
      (∀ k ∈ pre, Json.isObj k = true) →
      pre.mapM (apply_object now name) = .ok rs →
      Json.isObj j = false →
      apply_file now ⟨name, .ok (.arr xs)⟩
        = (rs, some (.malformedRecord "Expected object"))) := by
  refine ⟨?_, ?_, ?_⟩
  · intro hobj hm
    exact applyArr_ok now name xs rs hobj hm
  · intro v hv1 hv2
    unfold apply_file
    cases v
    case arr a => simp [Json.isArr] at hv2
    case obj fs => simp [Json.isObj] at hv1
    all_goals rfl
  · intro pre j post hxs hobj hm hj
    subst hxs
    exact applyArr_stop now name pre rs j post hobj hm hj

/-- Witness for C6 at concrete inputs: a two-object array inserts two records
in order; a bare JSON string is rejected; an object-then-nonobject array
keeps the first record and stops with `MalformedRecord`. -/
theorem apply_file_top_level_witness :
    (apply_file 0 ⟨"x.team.json", .ok (.arr [.obj [("n", .str "a")], .obj []])⟩
        = ([.other .team (.obj [("n", .str "a")]), .other .team (.obj [])], none)
      ∧ ([Record.other .team (.obj [("n", .str "a")]), .other .team (.obj [])]).length
        = ([Json.obj [("n", .str "a")], .obj []]).length)
    ∧ apply_file 0 ⟨"x.team.json", .ok (.str "s")⟩
        = ([], some (.malformedRecord "Expected object"))
    ∧ apply_file 0 ⟨"x.team.json", .ok (.arr [.obj [], .str "s"])⟩
        = ([.other .team (.obj [])], some (.malformedRecord "Expected object")) := by
  refine ⟨?_, ?_, ?_⟩
  · exact (apply_file_top_level 0 "x.team.json" [.obj [("n", .str "a")], .obj []]
      [.other .team (.obj [("n", .str "a")]), .other .team (.obj [])]).1
      (by decide) rfl
  · exact (apply_file_top_level 0 "x.team.json" [] []).2.1 (.str "s") rfl rfl
  · exact (apply_file_top_level 0 "x.team.json" [.obj [], .str "s"]
      [.other .team (.obj [])]).2.2 [.obj []] (.str "s") [] rfl (by decide) rfl rfl

theorem runFiles_fail (now : Int) :
    ∀ (files : List DataFile) (f : DataFile), f ∈ files →
    (apply_file now f).2.isSome = true →
    (runFiles now files).2.isSome = true
  | [], f, hf, _ => absurd hf (List.not_mem_nil f)
  | g :: gs, f, hf, he => by
    unfold runFiles
    cases hg : apply_file now g with
    | mk rs eo =>
      cases eo with
      | some e => rfl
      | none =>
        rcases List.mem_cons.mp hf with rfl | hf2
        · rw [hg] at he
          simp at he
        · have ih := runFiles_fail now gs f hf2 he
          cases hr : runFiles now gs with
          | mk rs2 e2 =>
            rw [hr] at ih
            exact ih

theorem bootstrap_atomicity (commitCheck : List Record → Bool) (now : Int)
    (files : List DataFile) (store : List Record) :
    ((∃ f ∈ files, (apply_file now f).2.isSome = true) →
      ∃ e, bootstrap commitCheck now files store = (.error e, store))
    ∧ ((runFiles now files).2 = none →
      commitCheck (store ++ (runFiles now files).1) = true →
      bootstrap commitCheck now files store = (.ok (), store ++ (runFiles now files).1))
    ∧ ((runFiles now files).2 = none →
      commitCheck (store ++ (runFiles now files).1) = false →
      bootstrap commitCheck now files store
        = (.error (.integrityError "deferred constraint violation"), store))
    ∧ (∀ res st2, bootstrap commitCheck now files store = (res, st2) →
      st2 = store ∨
        (st2 = store ++ (runFiles now files).1 ∧ (runFiles now files).2 = none
          ∧ commitCheck st2 = true ∧ res = .ok ())) := by
  refine ⟨?_, ?_, ?_, ?_⟩
  · rintro ⟨f, hf, he⟩
    have h := runFiles_fail now files f hf he
    unfold bootstrap
    cases hr : runFiles now files with
    | mk rs eo =>
      rw [hr] at h
      cases eo with
      | some e => exact ⟨e, rfl⟩
      | none => simp at h
  · intro h1 h2
    unfold bootstrap
    cases hr : runFiles now files with
    | mk rs eo =>
      rw [hr] at h1 h2
      cases eo with
      | some e => simp at h1
      | none =>
        simp only at h2
        simp [h2]
  · intro h1 h2
    unfold bootstrap
    cases hr : runFiles now files with
    | mk rs eo =>
      rw [hr] at h1 h2
      cases eo with
      | some e => simp at h1
      | none =>
        simp only at h2
        simp [h2]
  · intro res st2 hb
    unfold bootstrap at hb
    cases hr : runFiles now files with
    | mk rs eo =>
      rw [hr] at hb
      cases eo with
      | some e =>
        have h2 := (Prod.mk.inj hb).2
        exact Or.inl h2.symm
      | none =>
        cases hc : commitCheck (store ++ rs) with
        | true =>
          simp only [hc, if_true] at hb
          have h1 := (Prod.mk.inj hb).1
          have h2 := (Prod.mk.inj hb).2
          refine Or.inr ⟨h2.symm, rfl, ?_, h1.symm⟩
          rw [← h2]
          exact hc
        | false =>
          simp only [hc, Bool.false_eq_true, if_false] at hb
          exact Or.inl (Prod.mk.inj hb).2.symm

/-- C8: in every bootstrap invocation, the statement deferring all constraint
checking is the head of the transaction's statement trace, occurs at no other
position, and every insert statement occurs strictly after it — so no insert
of the invocation ever runs before constraints are deferred, whatever the
discovery order of the files. -/
theorem defer_before_inserts (now : Int) (files : List DataFile) :
    (bootstrapTrace now files).head? = some .deferConstraints
    ∧ (∀ i, (bootstrapTrace now files).get? i = some .deferConstraints → i = 0)
    ∧ (∀ i r, (bootstrapTrace now files).get? i = some (.insert r) → 0 < i) := by
  refine ⟨rfl, ?_, ?_⟩
  · intro i h
    cases i with
    | zero => rfl
    | succ n =>
      simp only [bootstrapTrace, List.get?_cons_succ, List.get?_map] at h
      cases hg : ((runFiles now files).1).get? n with
      | none =>
        rw [hg] at h
        exact Option.noConfusion h
      | some r =>
        rw [hg] at h
        exact Stmt.noConfusion (Option.some.inj h)
  · intro i r h
    cases i with
    | zero =>
      simp only [bootstrapTrace, List.get?_cons_zero] at h
      exact Stmt.noConfusion (Option.some.inj h)
    | succ n => exact Nat.succ_pos n

/-- Witness for C8: concrete trace facts obtained from the theorem — the
head statement, uniqueness of position 0, and an insert at position 1. -/
theorem defer_before_inserts_witness :
    (bootstrapTrace 0 []).head? = some .deferConstraints
    ∧ (0 : Nat) = 0 ∧ (0 : Nat) < 1 :=
  ⟨(defer_before_inserts 0 []).1,
   (defer_before_inserts 0 []).2.1 0 rfl,
   (defer_before_inserts 0 [⟨"x.team.json", .ok (.obj [])⟩]).2.2 1
     (.other .team (.obj [])) rfl⟩

/-- C10: every path yielded by the glob pattern ends in a component ending in
`.json`; such a component is non-empty and is not `..`, so `file_name()` at
line 57 is always `some` of a non-empty component and the `unwrap` cannot
panic. -/
theorem glob_file_name_safe (p : List String) :
    globYieldsJson p = true → ∃ c, fileNameOf p = some c ∧ c ≠ "" := by
  intro h
  unfold globYieldsJson at h
  cases hl : p.getLast? with
  | none =>
    rw [hl] at h
    exact Bool.noConfusion h
  | some c =>
    rw [hl] at h
    have hne0 : c ≠ "" := by
      intro hc
      rw [hc] at h
      exact Bool.noConfusion h
    have hne2 : c ≠ ".." := by
      intro hc
      rw [hc] at h
      exact Bool.noConfusion h
    refine ⟨c, ?_, hne0⟩
    simp only [fileNameOf, hl]
    rw [if_neg hne2]

/-- Witness for C10 at a concrete discovered path. -/
theorem glob_file_name_safe_witness :
    globYieldsJson ["bootstrap_data", "a.user.json"] = true
    ∧ ∃ c, fileNameOf ["bootstrap_data", "a.user.json"] = some c ∧ c ≠ "" :=
  ⟨rfl, glob_file_name_safe ["bootstrap_data", "a.user.json"] rfl⟩

/-- Witness for C1: a directory with one unknown-type file rolls back to the
empty store; a directory with one valid file commits its record; a failing
commit check rolls back. -/
theorem bootstrap_atomicity_witness :
    (∃ e, bootstrap (fun _ => true) 0 [⟨"x.widget.json", .ok (.obj [])⟩] []
      = (.error e, []))
    ∧ bootstrap (fun _ => true) 0 [⟨"x.team.json", .ok (.obj [])⟩] []
      = (.ok (), [] ++ (runFiles 0 [⟨"x.team.json", .ok (.obj [])⟩]).1)
    ∧ bootstrap (fun _ => false) 0 [⟨"x.team.json", .ok (.obj [])⟩] []
      = (.error (.integrityError "deferred constraint violation"), []) :=
  ⟨(bootstrap_atomicity (fun _ => true) 0 [⟨"x.widget.json", .ok (.obj [])⟩] []).1
      ⟨⟨"x.widget.json", .ok (.obj [])⟩, List.mem_cons_self _ _, rfl⟩,
   (bootstrap_atomicity (fun _ => true) 0 [⟨"x.team.json", .ok (.obj [])⟩] []).2.1 rfl rfl,
   (bootstrap_atomicity (fun _ => false) 0 [⟨"x.team.json", .ok (.obj [])⟩] []).2.2.1 rfl rfl⟩

/-- Witness for C2: two distinct raw key strings with equal parse results
give identical applications. -/
theorem api_key_row_no_secret_witness :
    applyApiKey 0 (mkApiKeyJson "a" "n" "t" "u" true 0)
      = applyApiKey 0 (mkApiKeyJson "b" "n" "t" "u" true 0) :=
  (api_key_row_no_secret 0).2.2 "a" "b" "n" "t" "u" true 0 rfl

/-- Witness for C3 at the spec's own examples: a two-part key, a wrong
prefix, an invalid base64 part, and error propagation to the api_key arm. -/
theorem api_key_credential_errors_witness :
    parseApiKey "ps1.x" = .error (.malformedCredential "API key must have 3 parts")
    ∧ parseApiKey "WRONG.x.y" = .error .pfxMismatch
    ∧ (∃ m, parseApiKey "ps1.!!.!!" = .error (.malformedCredential m))
    ∧ applyApiKey 0 (mkApiKeyJson "ps1.x" "n" "t" "u" true 0)
      = .error (.malformedCredential "API key must have 3 parts") :=
  ⟨(api_key_credential_errors "ps1.x").1 (by decide),
   (api_key_credential_errors "WRONG.x.y").2.1 "WRONG".data "x".data "y".data rfl (by decide),
   (api_key_credential_errors "ps1.!!.!!").2.2.1 "ps1".data "!!".data "!!".data rfl rfl
     (Or.inl (fun hex => by
        obtain ⟨bs, hbs, _⟩ := hex
        rw [show b64UrlDecode ("!!".data)
            = .error (.malformedCredential "Invalid base64 symbol") from rfl] at hbs
        exact Except.noConfusion hbs)),
   (api_key_credential_errors "ps1.x").2.2.2 _
     ((api_key_credential_errors "ps1.x").1 (by decide)) 0 "n" "t" "u" true 0⟩

/-- Witness for C4: the sample credential inserts the decoded zero id and
the derived data; equal derivation inputs are forced by equal hashes. -/
theorem api_key_derivation_witness :
    apply_object 5 "x.api_key.json" (mkApiKeyJson sampleKey "n" "t" "u" true 7)
      = .ok (.apiKey
        { id := zeroUuid, name := "n",
          pfx := (ApiKeyData.from_params apiKeyPfx.data zeroUuid zeroUuid 7).pfx,
          hash := (ApiKeyData.from_params apiKeyPfx.data zeroUuid zeroUuid 7).hash,
          team_id := "t", user_id := "u", inherits_user_permissions := true,
          created := 5, expires := 7 })
    ∧ ("q".data = "q".data ∧ (⟨[1]⟩ : Uuid) = ⟨[1]⟩ ∧ (⟨[2]⟩ : Uuid) = ⟨[2]⟩
        ∧ (3 : Int) = 3) :=
  ⟨(api_key_derivation 5 sampleKey "n" "t" "u" true 7 zeroUuid zeroUuid).1 rfl,
   (api_key_derivation 5 sampleKey "n" "t" "u" true 7 zeroUuid zeroUuid).2.2
     "q".data "q".data ⟨[1]⟩ ⟨[1]⟩ ⟨[2]⟩ ⟨[2]⟩ 3 3 rfl⟩

/-- Witness for C9: created equals the clock argument at a concrete input;
a `created` input field is ignored; re-running at a different clock changes
only `created`. -/
theorem api_key_created_now_witness :
    (apiKeyRow ⟨sampleKey, "n", "t", "u", true, 7⟩ zeroUuid
        (ApiKeyData.from_params apiKeyPfx.data zeroUuid zeroUuid 7) 5).created = 5
    ∧ decodeApiKeyInput (.obj (("created", .num 9) :: [("key", .str "k")]))
      = decodeApiKeyInput (.obj [("key", .str "k")])
    ∧ applyApiKey 6 (mkApiKeyJson sampleKey "n" "t" "u" true 7)
      = .ok (.apiKey
        { apiKeyRow ⟨sampleKey, "n", "t", "u", true, 7⟩ zeroUuid
            (ApiKeyData.from_params apiKeyPfx.data zeroUuid zeroUuid 7) 5
          with created := 6 }) :=
  ⟨api_key_created_now.1 5 (mkApiKeyJson sampleKey "n" "t" "u" true 7)
      (apiKeyRow ⟨sampleKey, "n", "t", "u", true, 7⟩ zeroUuid
        (ApiKeyData.from_params apiKeyPfx.data zeroUuid zeroUuid 7) 5) rfl,
   api_key_created_now.2.1 (.num 9) [("key", .str "k")],
   api_key_created_now.2.2 5 6 (mkApiKeyJson sampleKey "n" "t" "u" true 7)
     (apiKeyRow ⟨sampleKey, "n", "t", "u", true, 7⟩ zeroUuid
        (ApiKeyData.from_params apiKeyPfx.data zeroUuid zeroUuid 7) 5) rfl⟩
